import Mathlib

/-!
# Verification of the PRL timesheet processor core

Shallow embedding of the pay-calculation and document-field-extraction
logic of the repository's two processing variants:

* `timesheet_processor_streamlined.py` — the "bucket partition" variant
  (`extract_timesheet_data`, lines 24–97): hours are split into
  regular / Saturday / Sunday / over-50 buckets and each bucket is paid
  at its own multiplier.
* `appy1.py` — the "day-multiplier first" variant (`calculate_pay`,
  lines 113–145, and `extract_timesheet_data`, lines 147–242): every
  shift is paid at its day multiplier and the excess above the weekly
  threshold earns an extra `(overtime_multiplier - 1)` increment.

Python `float` arithmetic is modelled with `ℚ`; the sources apply
`round(·, 2)` only when formatting the returned report row, never inside
the arithmetic, so the unrounded values are embedded and rounding is
noted where the source performs it.  Strings are handled through their
character lists; the regular expressions of the source are embedded as
the explicit character-level matchers they denote.
-/

/-! ## Character and string utilities -/

/-- ASCII decimal digit test, the `\d` of the source's regexes. -/
def isDigitChar (c : Char) : Bool := c.isDigit

/-- Whitespace as matched by Python's `\s` / `str.strip` (ASCII part). -/
def isPyWs (c : Char) : Bool := c.isWhitespace

/-- `str.strip()` on the character list: drop whitespace at both ends. -/
def pyStripList (l : List Char) : List Char :=
  ((l.dropWhile isPyWs).reverse.dropWhile isPyWs).reverse

/-- `str.strip()`. -/
def pyStrip (s : String) : String := String.mk (pyStripList s.data)

/-- `str.lower()` (ASCII part, which is all the source's labels need). -/
def pyLower (s : String) : String := String.mk (s.data.map Char.toLower)

/-- `needle` occurs as a contiguous run somewhere in `l`. -/
def listContainsSub (needle : List Char) : List Char → Bool
  | [] => needle.isPrefixOf []
  | c :: rest => needle.isPrefixOf (c :: rest) || listContainsSub needle rest

/-- Substring containment, Python's `needle in hay` (case-sensitive). -/
def containsSub (hay needle : String) : Bool :=
  listContainsSub needle.data hay.data

/-- `str.title()`: a letter directly after a letter is lowercased, a letter
after a non-letter (or at the start) is uppercased; other characters are
kept and reset the word boundary. -/
def pyTitleAux : Bool → List Char → List Char
  | _, [] => []
  | prevAlpha, c :: rest =>
    if c.isAlpha then
      (if prevAlpha then c.toLower else c.toUpper) :: pyTitleAux true rest
    else
      c :: pyTitleAux false rest

/-- `str.title()`. -/
def pyTitle (s : String) : String := String.mk (pyTitleAux false s.data)

/-- `str.splitlines()` restricted to `\n` separators: like splitting on
`\n` but without a trailing empty piece when the text ends in `\n`, and
yielding `[]` on the empty string. -/
def pySplitlinesAux : List Char → List Char → List String
  | acc, [] => [String.mk acc.reverse]
  | acc, '\n' :: rest => String.mk acc.reverse :: pySplitlinesAux [] rest
  | acc, c :: rest => pySplitlinesAux (c :: acc) rest

/-- `str.splitlines()` (with `\n` line ends, the form docx cell text uses). -/
def pySplitlines (s : String) : List String :=
  if s.data.isEmpty then []
  else if s.data.getLast? = some '\n' then (pySplitlinesAux [] s.data).dropLast
  else pySplitlinesAux [] s.data

/-- `str.split()` with no argument: maximal runs of non-whitespace. -/
def pySplitWsAux : List Char → List Char → List String
  | acc, [] => if acc.isEmpty then [] else [String.mk acc.reverse]
  | acc, c :: rest =>
    if isPyWs c then
      (if acc.isEmpty then pySplitWsAux [] rest
       else String.mk acc.reverse :: pySplitWsAux [] rest)
    else pySplitWsAux (c :: acc) rest

/-- `str.split()`. -/
def pySplitWs (s : String) : List String := pySplitWsAux [] s.data

/-- The characters after the first occurrence of `needle` in `hay`
(`none` when `needle` does not occur).  Used to embed `re.search` for a
literal label: everything after the matched label is handed to the
capture logic. -/
def afterFirst (needle : List Char) : List Char → Option (List Char)
  | [] => if needle.isPrefixOf [] then some [] else none
  | c :: rest =>
    if needle.isPrefixOf (c :: rest) then some ((c :: rest).drop needle.length)
    else afterFirst needle rest

/-- Case-insensitive version: the label is given in lowercase and matched
against the lowercased text, the remainder is taken from the original
text (lowercasing is character-for-character).  Embeds `re.IGNORECASE`
label search. -/
def afterFirstCI (label : String) (s : String) : Option (List Char) :=
  match afterFirst label.data (s.data.map Char.toLower) with
  | none => none
  | some rest => some (s.data.drop (s.data.length - rest.length))

/-! ## Number and date parsing -/

/-- Numeric value of a digit run. -/
def digitsVal (l : List Char) : Nat :=
  l.foldl (fun acc c => 10 * acc + (c.toNat - 48)) 0

/-- Python `float()` on the plain decimal literals the timesheet cells
contain: optional sign, then digits with at most one dot and at least
one digit overall (`"7"`, `"7.5"`, `"-5"`, `".5"`, `"5."`).  Exponent
forms and the special words are not produced by the documents and are
not modelled.  `float("-")`, `float("–")`, `float("—")` and `float("")`
all raise in Python and return `none` here. -/
def parseFloat (s : String) : Option ℚ :=
  let cs := s.data
  let signed : Bool := cs.head? = some '-'
  let body := if cs.head? = some '-' ∨ cs.head? = some '+' then cs.drop 1 else cs
  let intPart := body.takeWhile isDigitChar
  let rest := body.drop intPart.length
  match rest with
  | [] =>
    if intPart.isEmpty then none
    else some ((if signed then -1 else 1) * (digitsVal intPart : ℚ))
  | '.' :: frac =>
    let fracPart := frac.takeWhile isDigitChar
    if ¬ (frac.drop fracPart.length).isEmpty then none
    else if intPart.isEmpty ∧ fracPart.isEmpty then none
    else some ((if signed then -1 else 1) *
      ((digitsVal intPart : ℚ) + (digitsVal fracPart : ℚ) / (10 : ℚ) ^ fracPart.length))
  | _ => none

/-- A parsed calendar date. -/
structure PDate where
  day : Nat
  month : Nat
  year : Nat
  deriving DecidableEq, Repr

/-- Chronological sort key (`datetime` comparison). -/
def PDate.key (d : PDate) : Nat := d.year * 10000 + d.month * 100 + d.day

/-- Days in a month, with the Gregorian leap rule (`datetime`'s calendar). -/
def daysInMonth (m y : Nat) : Nat :=
  if m = 2 then
    if y % 4 = 0 ∧ (y % 100 ≠ 0 ∨ y % 400 = 0) then 29 else 28
  else if m = 4 ∨ m = 6 ∨ m = 9 ∨ m = 11 then 30
  else 31

/-- `re.match(r"\d{2}\.\d{2}\.\d{4}", s)`: the first ten characters are
`DD.DD.DDDD` (anchored at the start, trailing characters allowed). -/
def matchesDatePrefix (s : String) : Bool :=
  match s.data with
  | d1 :: d2 :: c1 :: m1 :: m2 :: c2 :: y1 :: y2 :: y3 :: y4 :: _ =>
    isDigitChar d1 && isDigitChar d2 && c1 = '.' &&
    isDigitChar m1 && isDigitChar m2 && c2 = '.' &&
    isDigitChar y1 && isDigitChar y2 && isDigitChar y3 && isDigitChar y4
  | _ => false

/-- `datetime.strptime(s, "%d.%m.%Y")`: the whole string must be
`DD.MM.YYYY` and denote a valid calendar date (month 1–12, day within
the month, year at least 1).  Returns `none` where `strptime` raises
`ValueError` (e.g. `"31.02.2024"`). -/
def parseDate (s : String) : Option PDate :=
  match s.data with
  | [d1, d2, c1, m1, m2, c2, y1, y2, y3, y4] =>
    if isDigitChar d1 ∧ isDigitChar d2 ∧ c1 = '.' ∧
       isDigitChar m1 ∧ isDigitChar m2 ∧ c2 = '.' ∧
       isDigitChar y1 ∧ isDigitChar y2 ∧ isDigitChar y3 ∧ isDigitChar y4 then
      let d := digitsVal [d1, d2]
      let m := digitsVal [m1, m2]
      let y := digitsVal [y1, y2, y3, y4]
      if 1 ≤ m ∧ m ≤ 12 ∧ 1 ≤ d ∧ d ≤ daysInMonth m y ∧ 1 ≤ y then
        some ⟨d, m, y⟩
      else none
    else none
  | _ => none

/-! ## Data model -/

/-- One recognised day-row: the weekday text of column 1 and the parsed
hours of column 4 (`daily_data` entries of both sources). -/
structure Shift where
  weekday : String
  hours : ℚ
  deriving DecidableEq, Repr

/-- Sum of the hours of a shift list. -/
def hoursSum (l : List Shift) : ℚ := (l.map Shift.hours).sum

/-- The quantities computed by the bucket-partition calculation of
`timesheet_processor_streamlined.py`, lines 72–82 (`total_hours`,
the per-day sums of lines 79–80/94–95, `over_50`, `regular_hours`,
`total_pay`). -/
structure PayResult where
  total_hours : ℚ
  saturday_hours : ℚ
  sunday_hours : ℚ
  over_50 : ℚ
  regular_hours : ℚ
  total_pay : ℚ
  deriving DecidableEq, Repr

/-! ## Bucket-partition pay calculation (`timesheet_processor_streamlined.py`) -/

/-- `OT_RULES` of `timesheet_processor_streamlined.py` (lines 18–22). -/
def OT_Saturday : ℚ := 1.5
def OT_Sunday : ℚ := 1.75
def OT_Over50 : ℚ := 1.5

/-- Lines 72–82 of `timesheet_processor_streamlined.py`: the bucket
partition and the per-bucket pay.  The `50`-hour threshold and the
multipliers are hardcoded in that file.  The source rounds the hour and
pay figures with `round(·, 2)` only when building the returned dict
(lines 91–96); the unrounded values are embedded. -/
def streamlinedPay (daily : List Shift) (rate : ℚ) : PayResult :=
  let total_hours := hoursSum daily
  let weekend_hours :=
    hoursSum (daily.filter (fun d => d.weekday = "Saturday" ∨ d.weekday = "Sunday"))
  let over_50 := max (total_hours - 50) 0
  let saturday_hours := hoursSum (daily.filter (fun d => d.weekday = "Saturday"))
  let sunday_hours := hoursSum (daily.filter (fun d => d.weekday = "Sunday"))
  let regular_hours := total_hours - weekend_hours - over_50
  let regular_pay := regular_hours * rate
  let saturday_pay := saturday_hours * rate * OT_Saturday
  let sunday_pay := sunday_hours * rate * OT_Sunday
  let over50_pay := over_50 * rate * OT_Over50
  { total_hours := total_hours
    saturday_hours := saturday_hours
    sunday_hours := sunday_hours
    over_50 := over_50
    regular_hours := regular_hours
    total_pay := regular_pay + saturday_pay + sunday_pay + over50_pay }

/-- `custom_rates` of `timesheet_processor_streamlined.py` (lines 10–14). -/
def tsps_custom_rates : List (String × ℚ) := [("Aaron Hall", 15), ("Finley Mc", 18), ("Andrew Burke", 16.5)]

/-- `default_rate` of `timesheet_processor_streamlined.py` (line 15). -/
def tsps_default_rate : ℚ := 15

/-- `dict.get(k, default)` on an association list whose insertion
discipline keeps keys unique (see `dictInsert`). -/
def dictGet (d : List (String × ℚ)) (k : String) (dflt : ℚ) : ℚ :=
  match d.find? (fun e => e.1 = k) with
  | some e => e.2
  | none => dflt

/-! ## Row-level shift extraction (`timesheet_processor_streamlined.py`) -/

/-- Uppercase A–Z letter. -/
def isUpperAZ (c : Char) : Bool := 65 ≤ c.toNat && c.toNat ≤ 90

/-- `re.fullmatch(r"[A-Z\s]{5,}", t)`: at least five characters, all of
them uppercase letters or whitespace. -/
def matchesUpperName (t : String) : Bool :=
  decide (t.length ≥ 5) && t.data.all (fun c => isUpperAZ c || isPyWs c)

/-- The rule-1 name test of both sources: uppercase/whitespace text of
length at least 5 that does not contain `"PRL"`. -/
def isRule1Name (t : String) : Bool :=
  matchesUpperName t && !containsSub t "PRL"

/-- Lines 52–67 of `timesheet_processor_streamlined.py`, for one table
row: with at least 5 cells, column 0 is the date text, column 1 the
weekday, column 4 the hours.  The date is appended to `date_list` as
soon as `strptime` succeeds; the shift record additionally needs the
hours text to be non-empty, not a placeholder from `["-", "–", ""]`,
and `float`-parsable.  A `ValueError` from `strptime` or `float` is
swallowed by the bare `except: continue`, so a failing row yields
nothing and processing moves to the next row. -/
def tspsProcessRow (row : List String) : Option PDate × Option Shift :=
  if row.length ≥ 5 then
    let date_text := pyStrip (row.getD 0 "")
    let day := pyStrip (row.getD 1 "")
    let hrs := pyStrip (row.getD 4 "")
    if matchesDatePrefix date_text then
      match parseDate date_text with
      | some d =>
        (some d,
          if hrs ≠ "" ∧ hrs ∉ (["-", "–", ""] : List String) then
            match parseFloat hrs with
            | some h => some ⟨day, h⟩
            | none => none
          else none)
      | none => (none, none)
    else (none, none)
  else (none, none)

/-! ## Printed-name and document extraction (`timesheet_processor_streamlined.py`) -/

/-- The captured-and-stripped group of `re.search(r"...[:\-]?\s*(.+)", s)`
applied to the characters `rest` following the label: one optional `:`
or `-` delimiter, greedy whitespace, then at least one character.  When
everything after the delimiter is whitespace the regex backtracks and
the stripped group is empty; when `rest` is exactly one delimiter
character the engine declines the optional delimiter and captures it. -/
def captureOneDelim (rest : List Char) : Option String :=
  if rest.isEmpty then none
  else
    let a := if rest.head? = some ':' ∨ rest.head? = some '-' then rest.drop 1 else rest
    if a.isEmpty then some (String.mk rest) else some (pyStrip (String.mk a))

/-- Lines 30–34 of `timesheet_processor_streamlined.py`: every paragraph
containing `"Print Name"` overwrites `printed_name` with the captured
group of `Print Name[:\-]?\s*(.+)` (case-insensitive search guarded by a
case-sensitive containment test); paragraphs without a match leave it
unchanged. -/
def tsps_printed_step (acc : String) (p : String) : String :=
  if containsSub p "Print Name" then
    match afterFirstCI "print name" p with
    | some rest =>
      match captureOneDelim rest with
      | some v => v
      | none => acc
    | none => acc
  else acc

/-- The `printed_name` after the paragraph loop. -/
def tsps_printed (paras : List String) : String := paras.foldl tsps_printed_step ""

/-- Line 49 of `timesheet_processor_streamlined.py`: the first table cell
(in table/row/cell traversal order, stripped) that passes the rule-1
name test; `name` is only assigned while still empty, so the first
match wins. -/
def tsps_name_candidate (tables : List (List (List String))) : Option String :=
  (((tables.flatten).flatten).map pyStrip).find? isRule1Name

/-- The fields of the streamlined extractor that the claims are about
(client/site and the formatted date range are extracted by the same
file but referenced by no claim). -/
structure TspsOutput where
  Name : String
  printed_name : String
  daily_data : List Shift
  date_list : List PDate
  rate : ℚ
  pay : PayResult
  deriving DecidableEq, Repr

/-- `extract_timesheet_data` of `timesheet_processor_streamlined.py`
(lines 24–97): printed name from the paragraphs, rule-1 name from the
table cells, shifts and dates from the qualifying rows, then the
printed-name fallback (line 69–70), the rate lookup (line 75) and the
bucket-partition pay (lines 72–82). -/
def tsps_extract (paras : List String) (tables : List (List (List String))) : TspsOutput :=
  let printed := tsps_printed paras
  let name0 := match tsps_name_candidate tables with
    | some t => pyTitle t
    | none => ""
  let rows := tables.flatten
  let date_list := rows.filterMap (fun r => (tspsProcessRow r).1)
  let daily := rows.filterMap (fun r => (tspsProcessRow r).2)
  let name := if name0 = "" ∧ printed ≠ "" then printed else name0
  let rate := dictGet tsps_custom_rates name tsps_default_rate
  { Name := name
    printed_name := printed
    daily_data := daily
    date_list := date_list
    rate := rate
    pay := streamlinedPay daily rate }

/-! ## Day-multiplier-first pay calculation (`appy1.py`) -/

/-- The sidebar configuration of `appy1.py` (lines 37–75): default rate,
weekly overtime threshold and the three multipliers.  Module-level
globals in the source, passed explicitly here. -/
structure OvertimeConfig where
  default_rate : ℚ
  overtime_threshold : ℚ
  saturday_multiplier : ℚ
  sunday_multiplier : ℚ
  overtime_multiplier : ℚ
  deriving DecidableEq, Repr

/-- The loop body of `calculate_pay`'s first pass (lines 127–136 of
`appy1.py`): pick the day multiplier, accumulate hours and the
day-multiplied pay. -/
def payStep (satM sunM rate : ℚ) (a : ℚ × ℚ) (day : Shift) : ℚ × ℚ :=
  let multiplier :=
    if day.weekday = "Saturday" then satM
    else if day.weekday = "Sunday" then sunM
    else 1
  (a.1 + day.hours, a.2 + day.hours * rate * multiplier)

/-- `calculate_pay` of `appy1.py` (lines 113–145): rate lookup with the
default as fallback; one pass accumulating `total_hours` and the
day-multiplied pay; then, when the total exceeds the threshold, an extra
`excess * rate * (overtime_multiplier - 1)`.  Returns
`(total_hours, pay, rate)`; the source wraps the first two in
`round(·, 2)` at the `return`, which maps equal unrounded values to
equal rounded ones, so the unrounded pair is embedded. -/
def calculate_pay (cfg : OvertimeConfig) (custom_rates : List (String × ℚ))
    (name : String) (daily : List Shift) : ℚ × ℚ × ℚ :=
  let rate := dictGet custom_rates name cfg.default_rate
  let acc := daily.foldl (payStep cfg.saturday_multiplier cfg.sunday_multiplier rate) (0, 0)
  let total_hours := acc.1
  let pay :=
    if total_hours > cfg.overtime_threshold then
      acc.2 + (total_hours - cfg.overtime_threshold) * rate * (cfg.overtime_multiplier - 1)
    else acc.2
  (total_hours, pay, rate)

/-- Python `dict` assignment `d[k] = v` on an association list:
overwrite the entry when the key is present, append otherwise. -/
def dictInsert (d : List (String × ℚ)) (k : String) (v : ℚ) : List (String × ℚ) :=
  if d.any (fun e => e.1 = k) then
    d.map (fun e => if e.1 = k then (k, v) else e)
  else d ++ [(k, v)]

/-- The sidebar loop of `appy1.py` (lines 81–106): starting from an
empty dict, each entered `(name, rate)` pair is stored only when the
rate is strictly positive (`if rate_val > 0: custom_rates[name] = rate_val`). -/
def buildCustomRates (entries : List (String × ℚ)) : List (String × ℚ) :=
  entries.foldl (fun d e => if 0 < e.2 then dictInsert d e.1 e.2 else d) []

/-! ## Document extraction (`appy1.py`) -/

/-- The captured-and-stripped group of
`re.search(r"...[:\-\s]*(.+)", s)` (also covering the
`\s*[:\t\-\s]*(.+)` form, whose character class is the same set) on the
characters after the label: greedy run of whitespace/colon/dash, then at
least one character.  When the whole remainder is delimiter characters
the engine backtracks and the group is the final character. -/
def captureStarDelim (rest : List Char) : Option String :=
  if rest.isEmpty then none
  else
    let a := rest.dropWhile (fun c => isPyWs c || c = ':' || c = '-')
    if a.isEmpty then some (pyStrip (String.mk [rest.getLastD ' ']))
    else some (pyStrip (String.mk a))

/-- The `name`/`client`/`site` variables of `appy1.py`'s
`extract_timesheet_data`. -/
structure A1Fields where
  name : String
  client : String
  site : String
  deriving DecidableEq, Repr

/-- One iteration of the paragraph loop of `appy1.py` (lines 161–180),
in source order: client capture, rule-1 uppercase name (which here also
requires at least two words), printed-name capture (which in this file
assigns directly to `name`, so an earlier "print name" paragraph
pre-empts a later uppercase one), site capture. -/
def appy1_para_step (st : A1Fields) (raw : String) : A1Fields :=
  let text := pyStrip raw
  let client :=
    if containsSub text "Client" = true ∧ st.client = "" then
      match afterFirstCI "client" text with
      | some rest =>
        match captureStarDelim rest with
        | some v => v
        | none => st.client
      | none => st.client
    else st.client
  let name1 :=
    if st.name = "" ∧ isRule1Name text = true ∧ (pySplitWs text).length ≥ 2 then
      pyTitle text
    else st.name
  let name2 :=
    if name1 = "" ∧ containsSub (pyLower text) "print name" = true then
      match afterFirstCI "print name" text with
      | some rest =>
        match captureStarDelim rest with
        | some v => v
        | none => name1
      | none => name1
    else name1
  let site :=
    if containsSub text "Site Address" = true ∧ st.site = "" then
      match afterFirstCI "site address" text with
      | some rest =>
        match captureStarDelim rest with
        | some v => v
        | none => st.site
      | none => st.site
    else st.site
  { name := name2, client := client, site := site }

/-- One cell of the table fallback loop of `appy1.py` (lines 186–197):
site capture, then—while `name` is still empty—every line of the cell
that passes the two-word rule-1 test overwrites `name`, so the last
matching line of the first cell containing one wins. -/
def appy1_cell_step (st : A1Fields) (rawCell : String) : A1Fields :=
  let ct := pyStrip rawCell
  let site :=
    if st.site = "" ∧ containsSub ct "Site Address" = true then
      match afterFirstCI "site address" ct with
      | some rest =>
        match captureStarDelim rest with
        | some v => v
        | none => st.site
      | none => st.site
    else st.site
  let name :=
    if st.name = "" then
      match ((pySplitlines ct).filter
          (fun line => isRule1Name line && decide ((pySplitWs line).length ≥ 2))).getLast? with
      | some l => pyTitle l
      | none => st.name
    else st.name
  { name := name, client := st.client, site := site }

/-- The `name`/`client`/`site` state after the paragraph loop and the
table fallback loop of `appy1.py`. -/
def appy1_resolveFields (paras : List String) (tables : List (List (List String))) : A1Fields :=
  ((tables.flatten).flatten).foldl appy1_cell_step
    (paras.foldl appy1_para_step { name := "", client := "", site := "" })

/-- Lines 200–208 of `appy1.py`: a row with at least 5 cells yields a
shift record when the stripped hours text is non-empty, not one of
`["-", "–", "—"]`, the weekday text is non-empty, and `float` parses the
hours (a `ValueError` is swallowed by `except: pass`).  No date check is
involved on this path. -/
def appy1RowShift (row : List String) : Option Shift :=
  if row.length ≥ 5 then
    let hrs := pyStrip (row.getD 4 "")
    let day_text := pyStrip (row.getD 1 "")
    if hrs ≠ "" ∧ hrs ∉ (["-", "–", "—"] : List String) ∧ day_text ≠ "" then
      match parseFloat hrs with
      | some h => some ⟨day_text, h⟩
      | none => none
    else none
  else none

/-- Lines 213–221 of `appy1.py`: cell 0 of every row, `re.match` of the
date pattern, then `strptime` with `except: pass`. -/
def appy1RowDate (row : List String) : Option PDate :=
  let dt := pyStrip (row.headD "")
  if matchesDatePrefix dt then parseDate dt else none

/-- Two-digit zero-padded day/month (`strftime("%d"/"%m")`). -/
def pad2 (n : Nat) : String := if n < 10 then "0" ++ toString n else toString n

/-- Four-digit zero-padded year (`strftime("%Y")`). -/
def pad4 (n : Nat) : String :=
  if n < 10 then "000" ++ toString n
  else if n < 100 then "00" ++ toString n
  else if n < 1000 then "0" ++ toString n
  else toString n

/-- `strftime("%d.%m.%Y")`. -/
def fmtDate (d : PDate) : String := pad2 d.day ++ "." ++ pad2 d.month ++ "." ++ pad4 d.year

/-- Chronologically earliest date of `d :: l` (the head of the sorted list). -/
def minDate (d : PDate) (l : List PDate) : PDate :=
  l.foldl (fun a b => if b.key < a.key then b else a) d

/-- Chronologically latest date of `d :: l` (the last of the sorted list). -/
def maxDate (d : PDate) (l : List PDate) : PDate :=
  l.foldl (fun a b => if a.key ≤ b.key then b else a) d

/-- `Path(p).name`: the part after the last `/`. -/
def pyName (path : String) : String :=
  String.mk ((path.data.reverse.takeWhile (fun c => c ≠ '/')).reverse)

/-- Index of the last `.` in the character list (`str.rfind('.')`). -/
def lastDotIdx (cs : List Char) : Option Nat :=
  match cs.reverse.findIdx? (fun c => c = '.') with
  | some j => some (cs.length - 1 - j)
  | none => none

/-- `Path(p).stem`: the final component without its suffix; a suffix
needs a dot that is neither the first nor the last character of the
component (CPython's pathlib rule). -/
def pyStem (path : String) : String :=
  let nm := pyName path
  let cs := nm.data
  match lastDotIdx cs with
  | some i => if 0 < i ∧ i < cs.length - 1 then String.mk (cs.take i) else nm
  | none => nm

/-- The row record returned by `appy1.py`'s `extract_timesheet_data`
(lines 231–242). -/
structure A1Output where
  Name : String
  Client : String
  SiteAddress : String
  TotalHours : ℚ
  Rate : ℚ
  CalculatedPay : ℚ
  PrintedName : String
  DateRange : String
  FileName : String
  ExtractedOn : String
  deriving DecidableEq, Repr

/-- `extract_timesheet_data` of `appy1.py` (lines 147–242).  The call to
`datetime.now()` on line 241 is the one impure input; it enters the
embedding as the explicit `now` argument.  `calculate_pay` is invoked
with the pre-fallback name (`name or ""`, line 210); only afterwards is
an empty name replaced by the filename stem (lines 228–229), and the
`"Printed Name"` field repeats the post-fallback name (line 238). -/
def appy1_extract (paras : List String) (tables : List (List (List String)))
    (doc_path : String) (cfg : OvertimeConfig) (custom_rates : List (String × ℚ))
    (now : String) : A1Output :=
  let st := appy1_resolveFields paras tables
  let rows := tables.flatten
  let daily := rows.filterMap appy1RowShift
  let res := calculate_pay cfg custom_rates st.name daily
  let dates := rows.filterMap appy1RowDate
  let date_range :=
    match dates with
    | [] => ""
    | d :: rest => fmtDate (minDate d rest) ++ "–" ++ fmtDate (maxDate d rest)
  let name := if st.name = "" then pyStem doc_path else st.name
  { Name := name
    Client := st.client
    SiteAddress := st.site
    TotalHours := res.1
    Rate := res.2.2
    CalculatedPay := res.2.1
    PrintedName := name
    DateRange := date_range
    FileName := pyName doc_path
    ExtractedOn := now }

/-! ## Helper lemmas -/

theorem hoursSum_nil : hoursSum [] = 0 := rfl

theorem hoursSum_cons (d : Shift) (t : List Shift) :
    hoursSum (d :: t) = d.hours + hoursSum t := by
  simp [hoursSum]

/-- The weekend filter of line 73 splits into the Saturday and Sunday
sums of lines 79–80: a shift's weekday cannot be both strings. -/
theorem hoursSum_filter_weekend (l : List Shift) :
    hoursSum (l.filter (fun d => d.weekday = "Saturday" ∨ d.weekday = "Sunday")) =
      hoursSum (l.filter (fun d => d.weekday = "Saturday")) +
      hoursSum (l.filter (fun d => d.weekday = "Sunday")) := by
  induction l with
  | nil => simp [hoursSum]
  | cons d t ih =>
    simp only [Bool.decide_or] at ih
    by_cases hs : d.weekday = "Saturday"
    · simp +decide [List.filter_cons, hs, hoursSum_cons, ih]
      ring
    · by_cases hu : d.weekday = "Sunday"
      · simp +decide [List.filter_cons, hs, hu, hoursSum_cons, ih]
        ring
      · simp +decide [List.filter_cons, hs, hu, ih]

/-! ## C1 -/

/-- C1: for every shift list with non-negative hours, the bucket-partition
calculation of `timesheet_processor_streamlined.py` satisfies
`regular + saturday + sunday + over50 = total`, where `total` is the sum of
all shift hours, the Saturday/Sunday buckets are the sums over those
weekdays, and `over50 = max 0 (total - 50)`. -/
theorem C1_bucket_partition_invariant (daily : List Shift) (rate : ℚ)
    (hnn : ∀ s ∈ daily, 0 ≤ s.hours) :
    (streamlinedPay daily rate).regular_hours + (streamlinedPay daily rate).saturday_hours +
        (streamlinedPay daily rate).sunday_hours + (streamlinedPay daily rate).over_50 =
      (streamlinedPay daily rate).total_hours ∧
    (streamlinedPay daily rate).total_hours = hoursSum daily ∧
    (streamlinedPay daily rate).saturday_hours =
      hoursSum (daily.filter (fun d => d.weekday = "Saturday")) ∧
    (streamlinedPay daily rate).sunday_hours =
      hoursSum (daily.filter (fun d => d.weekday = "Sunday")) ∧
    (streamlinedPay daily rate).over_50 = max 0 (hoursSum daily - 50) := by
  refine ⟨?_, rfl, rfl, rfl, ?_⟩
  · unfold streamlinedPay
    dsimp only
    rw [hoursSum_filter_weekend]
    ring
  · unfold streamlinedPay
    dsimp only
    rw [max_comm]

theorem C1_bucket_partition_invariant_witness :
    (streamlinedPay [⟨"Monday", 8⟩, ⟨"Saturday", 10⟩] 15).regular_hours +
        (streamlinedPay [⟨"Monday", 8⟩, ⟨"Saturday", 10⟩] 15).saturday_hours +
        (streamlinedPay [⟨"Monday", 8⟩, ⟨"Saturday", 10⟩] 15).sunday_hours +
        (streamlinedPay [⟨"Monday", 8⟩, ⟨"Saturday", 10⟩] 15).over_50 =
      (streamlinedPay [⟨"Monday", 8⟩, ⟨"Saturday", 10⟩] 15).total_hours :=
  (C1_bucket_partition_invariant [⟨"Monday", 8⟩, ⟨"Saturday", 10⟩] 15
    (by intro s hs; fin_cases hs <;> norm_num)).1

/-! ## C2 -/

/-- C2, counterexample: the code has no clamp.  A single 60-hour Saturday
shift makes `regular_hours = 60 - 60 - 10 = -10 < 0`, refuting
"regularHours is never negative in a PayResult". -/
theorem C2_counterexample :
    (streamlinedPay [⟨"Saturday", 60⟩] 15).regular_hours = -10 ∧
    (streamlinedPay [⟨"Saturday", 60⟩] 15).regular_hours < 0 := by
  have h : (streamlinedPay [⟨"Saturday", 60⟩] 15).regular_hours = -10 := by
    simp +decide [streamlinedPay, hoursSum]
    norm_num
  exact ⟨h, by rw [h]; norm_num⟩

/-- C2, amended: `regular_hours` is computed as
`total - saturday - sunday - over50` with no clamping (line 77 of
`timesheet_processor_streamlined.py`), so it can be negative when the
over-threshold hours overlap the weekend hours. -/
theorem C2_amended_regular_hours_unclamped (daily : List Shift) (rate : ℚ) :
    (streamlinedPay daily rate).regular_hours =
      (streamlinedPay daily rate).total_hours - (streamlinedPay daily rate).saturday_hours -
        (streamlinedPay daily rate).sunday_hours - (streamlinedPay daily rate).over_50 := by
  unfold streamlinedPay
  dsimp only
  rw [hoursSum_filter_weekend]
  ring

/-! ## C3 -/

/-- The first pass of `calculate_pay` computes the total hours and the
day-multiplied pay: `Σ h`, and `Σ h·rate·m` split into the
non-weekend / Saturday / Sunday parts. -/
theorem foldl_payStep (satM sunM rate : ℚ) (l : List Shift) :
    ∀ a b : ℚ, l.foldl (payStep satM sunM rate) (a, b) =
      (a + hoursSum l,
       b + (hoursSum l - hoursSum (l.filter (fun d => d.weekday = "Saturday")) -
            hoursSum (l.filter (fun d => d.weekday = "Sunday"))) * rate +
         hoursSum (l.filter (fun d => d.weekday = "Saturday")) * rate * satM +
         hoursSum (l.filter (fun d => d.weekday = "Sunday")) * rate * sunM) := by
  induction l with
  | nil => intro a b; simp [hoursSum]
  | cons d t ih =>
    intro a b
    by_cases hs : d.weekday = "Saturday"
    · rw [List.foldl_cons, show payStep satM sunM rate (a, b) d =
        (a + d.hours, b + d.hours * rate * satM) from by simp [payStep, hs], ih]
      simp +decide [List.filter_cons, hs, hoursSum_cons]
      constructor
      · ring
      · ring
    · by_cases hu : d.weekday = "Sunday"
      · rw [List.foldl_cons, show payStep satM sunM rate (a, b) d =
          (a + d.hours, b + d.hours * rate * sunM) from by simp [payStep, hs, hu], ih]
        simp +decide [List.filter_cons, hs, hu, hoursSum_cons]
        constructor
        · ring
        · ring
      · rw [List.foldl_cons, show payStep satM sunM rate (a, b) d =
          (a + d.hours, b + d.hours * rate * 1) from by simp [payStep, hs, hu], ih]
        simp +decide [List.filter_cons, hs, hu, hoursSum_cons]
        constructor
        · ring
        · ring

/-- C3, amended: instantiated at the same rate, threshold and
multipliers (the streamlined file hardcodes threshold 50 and multipliers
1.5 / 1.75 / 1.5), `appy1.py`'s day-multiplier-first `calculate_pay` and
the bucket-partition computation of `timesheet_processor_streamlined.py`
agree on total hours, total pay and rate for EVERY shift list: paying
the over-threshold excess at `rate * (m - 1)` on top of day-multiplied
pay is algebraically the same as carving the excess out of the unclamped
regular bucket and paying it at `rate * m`. -/
theorem C3_amended_formulas_agree (dflt : ℚ) (custom_rates : List (String × ℚ))
    (name : String) (daily : List Shift) :
    calculate_pay ⟨dflt, 50, 1.5, 1.75, 1.5⟩ custom_rates name daily =
      ((streamlinedPay daily (dictGet custom_rates name dflt)).total_hours,
       (streamlinedPay daily (dictGet custom_rates name dflt)).total_pay,
       dictGet custom_rates name dflt) := by
  unfold calculate_pay streamlinedPay
  dsimp only
  rw [foldl_payStep]
  rw [hoursSum_filter_weekend]
  dsimp only
  simp only [zero_add]
  set rate := dictGet custom_rates name dflt
  set T := hoursSum daily
  set S := hoursSum (daily.filter (fun d => d.weekday = "Saturday"))
  set U := hoursSum (daily.filter (fun d => d.weekday = "Sunday"))
  by_cases hT : T > 50
  · have hmax : max (T - 50) 0 = T - 50 := max_eq_left (by linarith)
    rw [if_pos hT, hmax]
    refine Prod.ext (by ring) (Prod.ext ?_ rfl)
    show _ = (T - (S + U) - (T - 50)) * rate + S * rate * OT_Saturday +
      U * rate * OT_Sunday + (T - 50) * rate * OT_Over50
    rw [OT_Saturday, OT_Sunday, OT_Over50]
    norm_num
    ring
  · have hmax : max (T - 50) 0 = 0 := max_eq_right (by linarith)
    rw [if_neg hT, hmax]
    refine Prod.ext (by ring) (Prod.ext ?_ rfl)
    show _ = (T - (S + U) - 0) * rate + S * rate * OT_Saturday +
      U * rate * OT_Sunday + 0 * rate * OT_Over50
    rw [OT_Saturday, OT_Sunday, OT_Over50]
    ring

/-- C3, counterexample to the claim as stated: a 60-hour all-Saturday
week at rate 10 has its full 10 over-threshold hours inside weekend
hours, yet both computations pay exactly 950 — they do not differ. -/
theorem C3_counterexample :
    (calculate_pay ⟨10, 50, 1.5, 1.75, 1.5⟩ [] "X" [⟨"Saturday", 60⟩]).2.1 = 950 ∧
    (streamlinedPay [⟨"Saturday", 60⟩] 10).total_pay = 950 := by
  constructor
  · simp +decide [calculate_pay, payStep, dictGet, hoursSum]
    norm_num
  · simp +decide [streamlinedPay, hoursSum, OT_Saturday, OT_Sunday, OT_Over50]
    norm_num

/-! ## C4 -/

theorem dictGet_cons_pos (x : String × ℚ) (l : List (String × ℚ)) (name : String)
    (dflt : ℚ) (hk : x.1 = name) : dictGet (x :: l) name dflt = x.2 := by
  unfold dictGet
  rw [List.find?_cons_of_pos _ (by simpa using hk)]

theorem dictGet_cons_neg (x : String × ℚ) (l : List (String × ℚ)) (name : String)
    (dflt : ℚ) (hk : ¬ x.1 = name) : dictGet (x :: l) name dflt = dictGet l name dflt := by
  unfold dictGet
  rw [List.find?_cons_of_neg _ (by simpa using hk)]

theorem dictGet_eq_dflt (l : List (String × ℚ)) (name : String) (dflt : ℚ)
    (h : ∀ x ∈ l, ¬ x.1 = name) : dictGet l name dflt = dflt := by
  unfold dictGet
  rw [List.find?_eq_none.mpr (by intro x hx; simpa using h x hx)]

/-- An assignment with a key that is fresh for the dict appends. -/
theorem dictInsert_fresh (d : List (String × ℚ)) (k : String) (v : ℚ)
    (h : ∀ e ∈ d, e.1 ≠ k) : dictInsert d k v = d ++ [(k, v)] := by
  have hc : ¬ (d.any (fun e => e.1 = k) = true) := by
    simp only [List.any_eq_true, decide_eq_true_eq]
    rintro ⟨e, he, hek⟩
    exact h e he hek
  unfold dictInsert
  rw [if_neg hc]

/-- With pairwise-distinct names the sidebar loop builds exactly the list
of positively-rated entries. -/
theorem buildCustomRates_aux (entries : List (String × ℚ)) :
    ∀ d : List (String × ℚ), (∀ e ∈ entries, ∀ x ∈ d, x.1 ≠ e.1) →
      (entries.map Prod.fst).Nodup →
      entries.foldl (fun d e => if 0 < e.2 then dictInsert d e.1 e.2 else d) d =
        d ++ entries.filter (fun e => 0 < e.2) := by
  induction entries with
  | nil => intro d _ _; simp
  | cons e t ih =>
    intro d hfresh hnd
    rw [List.map_cons] at hnd
    have hnd' : (t.map Prod.fst).Nodup := (List.nodup_cons.mp hnd).2
    have hnotin : e.1 ∉ t.map Prod.fst := (List.nodup_cons.mp hnd).1
    simp only [List.foldl_cons, List.filter_cons]
    by_cases hv : 0 < e.2
    · rw [if_pos hv]
      rw [dictInsert_fresh d e.1 e.2 (fun x hx => hfresh e (by simp) x hx)]
      rw [ih (d ++ [(e.1, e.2)]) ?_ hnd']
      · simp [hv, List.append_assoc]
      · intro e' he' x hx
        rcases List.mem_append.mp hx with hxd | hxe
        · exact hfresh e' (List.mem_cons_of_mem _ he') x hxd
        · have hxe' : x = (e.1, e.2) := by simpa using hxe
          subst hxe'
          intro hcontra
          apply hnotin
          rw [hcontra]
          exact List.mem_map_of_mem Prod.fst he'
    · rw [if_neg hv]
      rw [ih d (fun e' he' x hx => hfresh e' (List.mem_cons_of_mem _ he') x hx) hnd']
      simp [hv]

theorem buildCustomRates_eq_filter (entries : List (String × ℚ))
    (hnd : (entries.map Prod.fst).Nodup) :
    buildCustomRates entries = entries.filter (fun e => 0 < e.2) := by
  unfold buildCustomRates
  simpa using buildCustomRates_aux entries [] (by simp) hnd

/-- C4: for a rate table with pairwise-distinct names and non-negative
entered rates (the sidebar only accepts values at or above 0), the rate
`calculate_pay` resolves through the dict built by `appy1.py`'s sidebar
loop is the stored rate for the name, except that an absent name or a
stored rate of exactly zero falls back to the default rate. -/
theorem C4_rate_resolution (entries : List (String × ℚ)) (dflt : ℚ) (name : String)
    (hnd : (entries.map Prod.fst).Nodup) (hnn : ∀ e ∈ entries, 0 ≤ e.2) :
    dictGet (buildCustomRates entries) name dflt =
      match entries.find? (fun e => e.1 = name) with
      | some e => if e.2 = 0 then dflt else e.2
      | none => dflt := by
  rw [buildCustomRates_eq_filter entries hnd]
  induction entries with
  | nil => simp [dictGet]
  | cons e t ih =>
    rw [List.map_cons] at hnd
    have hnd' : (t.map Prod.fst).Nodup := (List.nodup_cons.mp hnd).2
    have hnotin : e.1 ∉ t.map Prod.fst := (List.nodup_cons.mp hnd).1
    have hnn' : ∀ x ∈ t, 0 ≤ x.2 := fun x hx => hnn x (List.mem_cons_of_mem _ hx)
    by_cases hk : e.1 = name
    · by_cases hv : 0 < e.2
      · rw [List.filter_cons, if_pos (by simpa using hv)]
        rw [dictGet_cons_pos _ _ _ _ hk]
        rw [List.find?_cons_of_pos _ (by simpa using hk)]
        simp [ne_of_gt hv]
      · have hz : e.2 = 0 := le_antisymm (not_lt.mp hv) (hnn e (by simp))
        rw [List.filter_cons, if_neg (by simpa using hv)]
        rw [List.find?_cons_of_pos _ (by simpa using hk)]
        rw [dictGet_eq_dflt]
        · simp [hz]
        · intro x hx hxn
          have hx' : x ∈ t := (List.mem_filter.mp hx).1
          apply hnotin
          rw [hk, ← hxn]
          exact List.mem_map_of_mem Prod.fst hx'
    · by_cases hv : 0 < e.2
      · rw [List.filter_cons, if_pos (by simpa using hv)]
        rw [dictGet_cons_neg _ _ _ _ hk]
        rw [List.find?_cons_of_neg _ (by simpa using hk)]
        exact ih hnd' hnn'
      · rw [List.filter_cons, if_neg (by simpa using hv)]
        rw [List.find?_cons_of_neg _ (by simpa using hk)]
        exact ih hnd' hnn'

theorem C4_rate_resolution_witness :
    dictGet (buildCustomRates [("Aaron Hall", 15), ("Zed", 0)]) "Zed" 12 = 12 := by
  have h := C4_rate_resolution [("Aaron Hall", 15), ("Zed", 0)] 12 "Zed"
    (by decide) (by intro e he; fin_cases he <;> norm_num)
  rw [h]
  rfl

/-! ## C5 -/

/-- C5, counterexample: neither extractor nor calculator validates
negative hours.  A row with hours text `"-5"` passes the cell gate of
`timesheet_processor_streamlined.py` (line 60: non-empty, not a
placeholder) because `float("-5")` parses, and the resulting shift flows
into the pay computation, which returns a negative total pay instead of
raising a validation error. -/
theorem C5_counterexample :
    (tspsProcessRow ["01.04.2024", "Monday", "", "", "-5"]).2 =
      some ⟨"Monday", -5⟩ ∧
    (streamlinedPay [⟨"Monday", -5⟩] 15).total_pay = -75 := by
  constructor
  · simp +decide [tspsProcessRow, parseDate, parseFloat, digitsVal, isDigitChar,
      pyStrip, pyStripList, matchesDatePrefix, daysInMonth]
  · simp +decide [streamlinedPay, hoursSum, OT_Saturday, OT_Sunday, OT_Over50]
    norm_num

/-- C5, amended: negative hours are not rejected; a single negative-hour
weekday shift produces a strictly negative total pay at any positive
rate. -/
theorem C5_amended_negative_hours_accepted (h rate : ℚ) (wd : String)
    (hneg : h < 0) (hrate : 0 < rate)
    (hwd1 : wd ≠ "Saturday") (hwd2 : wd ≠ "Sunday") :
    (streamlinedPay [⟨wd, h⟩] rate).total_pay < 0 := by
  unfold streamlinedPay
  dsimp only
  have hfil1 : ([(⟨wd, h⟩ : Shift)].filter
      (fun d => d.weekday = "Saturday" ∨ d.weekday = "Sunday")) = [] := by
    simp [List.filter_cons, hwd1, hwd2]
  have hfil2 : ([(⟨wd, h⟩ : Shift)].filter (fun d => d.weekday = "Saturday")) = [] := by
    simp [List.filter_cons, hwd1]
  have hfil3 : ([(⟨wd, h⟩ : Shift)].filter (fun d => d.weekday = "Sunday")) = [] := by
    simp [List.filter_cons, hwd2]
  rw [hfil1, hfil2, hfil3]
  have hsum : hoursSum [(⟨wd, h⟩ : Shift)] = h := by simp [hoursSum]
  rw [hsum]
  have hmax : max (h - 50) 0 = 0 := max_eq_right (by linarith)
  rw [hmax]
  have : hoursSum ([] : List Shift) = 0 := rfl
  rw [this]
  have hlt : (h - 0) * rate < 0 := mul_neg_of_neg_of_pos (by linarith) hrate
  calc (h - 0 - 0) * rate + 0 * rate * OT_Saturday + 0 * rate * OT_Sunday +
        0 * rate * OT_Over50 = (h - 0) * rate := by ring
    _ < 0 := hlt

theorem C5_amended_negative_hours_accepted_witness :
    (streamlinedPay [⟨"Monday", -5⟩] 15).total_pay < 0 :=
  C5_amended_negative_hours_accepted (-5) 15 "Monday" (by norm_num) (by norm_num)
    (by decide) (by decide)

/-! ## C6 -/

theorem pyTitleAux_length (l : List Char) : ∀ b : Bool, (pyTitleAux b l).length = l.length := by
  induction l with
  | nil => intro b; rfl
  | cons c t ih =>
    intro b
    simp only [pyTitleAux]
    by_cases hc : c.isAlpha = true
    · rw [if_pos hc]
      simp [ih]
    · rw [if_neg hc]
      simp [ih]

/-- `str.title()` of a non-empty string is non-empty. -/
theorem pyTitle_ne_empty (t : String) (h : t ≠ "") : pyTitle t ≠ "" := by
  intro hc
  apply h
  have hd : (pyTitle t).data = ("" : String).data := congrArg String.data hc
  have hlen : t.data.length = 0 := by
    have hl := congrArg List.length hd
    simpa [pyTitle, pyTitleAux_length] using hl
  cases t with
  | mk data =>
    cases data with
    | nil => rfl
    | cons c cs => simp at hlen

/-- C6: when the tables contain a cell passing the rule-1 uppercase-name
test (all uppercase letters and spaces, length at least 5, no `"PRL"`)
and the paragraphs yield a different printed name, the streamlined
extractor returns the title-cased rule-1 candidate, not the printed
name; the printed-name fallback of lines 69–70 only fires when no
rule-1 candidate exists. -/
theorem C6_name_precedence (paras : List String) (tables : List (List (List String)))
    (t : String)
    (hcand : tsps_name_candidate tables = some t)
    (hprint : tsps_printed paras ≠ "")
    (hdiff : tsps_printed paras ≠ pyTitle t) :
    (tsps_extract paras tables).Name = pyTitle t ∧
    (tsps_extract paras tables).Name ≠ tsps_printed paras := by
  have hrule : isRule1Name t = true := List.find?_some hcand
  have hlen : 5 ≤ t.length := by
    unfold isRule1Name matchesUpperName at hrule
    simp only [Bool.and_eq_true, decide_eq_true_eq] at hrule
    exact hrule.1.1
  have htne : t ≠ "" := by
    intro hc
    rw [hc] at hlen
    simp at hlen
  have hTne : pyTitle t ≠ "" := pyTitle_ne_empty t htne
  unfold tsps_extract
  rw [hcand]
  dsimp only
  constructor
  · show (if pyTitle t = "" ∧ tsps_printed paras ≠ "" then tsps_printed paras
      else pyTitle t) = pyTitle t
    rw [if_neg (fun hcontra => hTne hcontra.1)]
  · show (if pyTitle t = "" ∧ tsps_printed paras ≠ "" then tsps_printed paras
      else pyTitle t) ≠ tsps_printed paras
    rw [if_neg (fun hcontra => hTne hcontra.1)]
    exact fun hc => hdiff hc.symm

theorem C6_name_precedence_witness :
    (tsps_extract ["Print Name: John"] [[["JANE DOE", "x", "x", "x", "x"]]]).Name = "Jane Doe" ∧
    (tsps_extract ["Print Name: John"] [[["JANE DOE", "x", "x", "x", "x"]]]).Name ≠ "John" := by
  have h := C6_name_precedence ["Print Name: John"] [[["JANE DOE", "x", "x", "x", "x"]]]
    "JANE DOE" (by decide) (by decide) (by decide)
  constructor
  · rw [h.1]
    decide
  · have hp : tsps_printed ["Print Name: John"] = "John" := by decide
    rw [← hp]
    exact h.2

/-! ## C7 -/

/-- C7: whenever the document's source name yields a non-empty stem,
`appy1.py`'s extractor returns a non-empty `Name`: an empty resolution
through the uppercase and printed-name rules falls back to
`Path(doc_path).stem` (lines 228–229). -/
theorem C7_name_fallback (paras : List String) (tables : List (List (List String)))
    (doc_path : String) (cfg : OvertimeConfig) (custom_rates : List (String × ℚ))
    (now : String) (hstem : pyStem doc_path ≠ "") :
    (appy1_extract paras tables doc_path cfg custom_rates now).Name ≠ "" ∧
    ((appy1_resolveFields paras tables).name = "" →
      (appy1_extract paras tables doc_path cfg custom_rates now).Name = pyStem doc_path) := by
  unfold appy1_extract
  dsimp only
  by_cases h : (appy1_resolveFields paras tables).name = ""
  · rw [if_pos h]
    exact ⟨hstem, fun _ => rfl⟩
  · rw [if_neg h]
    exact ⟨h, fun hc => absurd hc h⟩

theorem C7_name_fallback_witness :
    (appy1_extract [] [] "timesheet1.docx" ⟨15, 50, 1.5, 1.75, 1.25⟩ [] "now").Name ≠ "" ∧
    (appy1_extract [] [] "timesheet1.docx" ⟨15, 50, 1.5, 1.75, 1.25⟩ [] "now").Name =
      pyStem "timesheet1.docx" :=
  have h := C7_name_fallback [] [] "timesheet1.docx" ⟨15, 50, 1.5, 1.75, 1.25⟩ [] "now"
    (by decide)
  ⟨h.1, h.2 (by decide)⟩

/-! ## C8 -/

/-- C8: in the streamlined row extraction a shift record is produced only
when the stripped hours cell is non-empty, is none of the placeholder
dashes, and `float`-parses to the record's hours; a placeholder or
unparsable hours cell yields no record and no error (the bare `except`
swallows the `ValueError`).  The em dash is missing from the file's own
placeholder list `["-", "–", ""]`, but `float("—")` fails, so such rows
are still skipped. -/
theorem C8_hours_cell_gate (row : List String) (s : Shift) :
    ((tspsProcessRow row).2 = some s →
      pyStrip (row.getD 4 "") ≠ "" ∧
      pyStrip (row.getD 4 "") ∉ (["-", "–", "—"] : List String) ∧
      parseFloat (pyStrip (row.getD 4 "")) = some s.hours) ∧
    (pyStrip (row.getD 4 "") ∈ (["-", "–", "—"] : List String) ∨
        parseFloat (pyStrip (row.getD 4 "")) = none →
      (tspsProcessRow row).2 = none) := by
  unfold tspsProcessRow
  by_cases h5 : row.length ≥ 5
  · rw [if_pos h5]
    by_cases hm : matchesDatePrefix (pyStrip (row.getD 0 "")) = true
    · rw [if_pos hm]
      cases hd : parseDate (pyStrip (row.getD 0 "")) with
      | none => exact ⟨fun hc => by simp at hc, fun _ => rfl⟩
      | some d =>
        dsimp only
        by_cases hg : pyStrip (row.getD 4 "") ≠ "" ∧
            pyStrip (row.getD 4 "") ∉ (["-", "–", ""] : List String)
        · rw [if_pos hg]
          cases hf : parseFloat (pyStrip (row.getD 4 "")) with
          | none =>
            refine ⟨fun hc => by simp at hc, fun _ => rfl⟩
          | some hval =>
            constructor
            · intro hc
              have hs : s = ⟨pyStrip (row.getD 1 ""), hval⟩ := by simpa using hc.symm
              refine ⟨hg.1, ?_, by rw [hs]⟩
              intro hmem
              rcases (by simpa using hmem :
                  pyStrip (row.getD 4 "") = "-" ∨ pyStrip (row.getD 4 "") = "–" ∨
                  pyStrip (row.getD 4 "") = "—") with h1 | h1 | h1
              · exact hg.2 (by rw [h1]; decide)
              · exact hg.2 (by rw [h1]; decide)
              · rw [h1, show parseFloat "—" = none from by decide] at hf
                exact Option.noConfusion hf
            · intro hbad
              exfalso
              rcases hbad with hmem | hnone
              · rcases (by simpa using hmem :
                    pyStrip (row.getD 4 "") = "-" ∨ pyStrip (row.getD 4 "") = "–" ∨
                    pyStrip (row.getD 4 "") = "—") with h1 | h1 | h1
                · exact hg.2 (by rw [h1]; decide)
                · exact hg.2 (by rw [h1]; decide)
                · rw [h1, show parseFloat "—" = none from by decide] at hf
                  exact Option.noConfusion hf
              · exact Option.noConfusion hnone
        · rw [if_neg hg]
          exact ⟨fun hc => by simp at hc, fun _ => rfl⟩
    · rw [if_neg hm]
      exact ⟨fun hc => by simp at hc, fun _ => rfl⟩
  · rw [if_neg h5]
    exact ⟨fun hc => by simp at hc, fun _ => rfl⟩

theorem C8_hours_cell_gate_witness :
    (tspsProcessRow ["01.04.2024", "Monday", "", "", "-"]).2 = none :=
  (C8_hours_cell_gate ["01.04.2024", "Monday", "", "", "-"] ⟨"Monday", 0⟩).2
    (Or.inl (by decide))

/-! ## C9 -/

/-- C9: a streamlined-extractor shift record requires at least 5 cells,
a `DD.DD.DDDD`-shaped date text in column 0 and a `strptime`-valid
calendar date; a pattern-matching but invalid date such as
`"31.02.2024"` yields nothing for its row (no crash: the `ValueError`
is swallowed) and extraction continues with the remaining rows. -/
theorem C9_date_gate :
    (∀ (row : List String) (s : Shift), (tspsProcessRow row).2 = some s →
        row.length ≥ 5 ∧ matchesDatePrefix (pyStrip (row.getD 0 "")) = true ∧
        (parseDate (pyStrip (row.getD 0 ""))).isSome = true) ∧
    tspsProcessRow ["31.02.2024", "Friday", "", "", "8"] = (none, none) ∧
    (tsps_extract [] [[["31.02.2024", "Friday", "", "", "8"],
        ["01.03.2024", "Friday", "", "", "8"]]]).daily_data = [⟨"Friday", 8⟩] := by
  refine ⟨?_, ?_, ?_⟩
  · intro row s hc
    unfold tspsProcessRow at hc
    by_cases h5 : row.length ≥ 5
    · rw [if_pos h5] at hc
      by_cases hm : matchesDatePrefix (pyStrip (row.getD 0 "")) = true
      · rw [if_pos hm] at hc
        cases hd : parseDate (pyStrip (row.getD 0 "")) with
        | none =>
          rw [hd] at hc
          simp at hc
        | some d =>
          exact ⟨h5, hm, rfl⟩
      · rw [if_neg hm] at hc
        simp at hc
    · rw [if_neg h5] at hc
      simp at hc
  · decide
  · simp +decide [tsps_extract, tspsProcessRow, parseDate, parseFloat, digitsVal,
      isDigitChar, pyStrip, pyStripList, matchesDatePrefix, daysInMonth]

theorem C9_date_gate_witness :
    (["01.03.2024", "Friday", "", "", "8"] : List String).length ≥ 5 ∧
    matchesDatePrefix (pyStrip ((["01.03.2024", "Friday", "", "", "8"] : List String).getD 0 "")) = true ∧
    (parseDate (pyStrip ((["01.03.2024", "Friday", "", "", "8"] : List String).getD 0 ""))).isSome = true :=
  C9_date_gate.1 ["01.03.2024", "Friday", "", "", "8"] ⟨"Friday", 8⟩ (by
    simp +decide [tspsProcessRow, parseDate, parseFloat, digitsVal, isDigitChar,
      pyStrip, pyStripList, matchesDatePrefix, daysInMonth])

/-! ## C10 -/

/-- C10, counterexample: `appy1.py`'s extractor stamps the row with
`datetime.now()` (line 241, the `"Extracted On"` field), so two runs on
the identical document at different times return different records —
the output is not a pure function of the document content. -/
theorem C10_counterexample :
    appy1_extract [] [] "a.docx" ⟨15, 50, 1.5, 1.75, 1.25⟩ [] "2025-06-01 10:00:00" ≠
      appy1_extract [] [] "a.docx" ⟨15, 50, 1.5, 1.75, 1.25⟩ [] "2025-06-01 10:00:01" := by
  intro hc
  have h := congrArg A1Output.ExtractedOn hc
  exact absurd h (by decide)

/-- C10, amended: except for the `Extracted On` timestamp, every output
field of `appy1.py`'s extractor is a deterministic function of the
document content, path and configuration — two runs at different times
agree on all of them, and the timestamp simply records the call time. -/
theorem C10_amended_deterministic_but_timestamp (paras : List String)
    (tables : List (List (List String))) (doc_path : String) (cfg : OvertimeConfig)
    (custom_rates : List (String × ℚ)) (t1 t2 : String) :
    (appy1_extract paras tables doc_path cfg custom_rates t1).Name =
      (appy1_extract paras tables doc_path cfg custom_rates t2).Name ∧
    (appy1_extract paras tables doc_path cfg custom_rates t1).Client =
      (appy1_extract paras tables doc_path cfg custom_rates t2).Client ∧
    (appy1_extract paras tables doc_path cfg custom_rates t1).SiteAddress =
      (appy1_extract paras tables doc_path cfg custom_rates t2).SiteAddress ∧
    (appy1_extract paras tables doc_path cfg custom_rates t1).TotalHours =
      (appy1_extract paras tables doc_path cfg custom_rates t2).TotalHours ∧
    (appy1_extract paras tables doc_path cfg custom_rates t1).Rate =
      (appy1_extract paras tables doc_path cfg custom_rates t2).Rate ∧
    (appy1_extract paras tables doc_path cfg custom_rates t1).CalculatedPay =
      (appy1_extract paras tables doc_path cfg custom_rates t2).CalculatedPay ∧
    (appy1_extract paras tables doc_path cfg custom_rates t1).PrintedName =
      (appy1_extract paras tables doc_path cfg custom_rates t2).PrintedName ∧
    (appy1_extract paras tables doc_path cfg custom_rates t1).DateRange =
      (appy1_extract paras tables doc_path cfg custom_rates t2).DateRange ∧
    (appy1_extract paras tables doc_path cfg custom_rates t1).FileName =
      (appy1_extract paras tables doc_path cfg custom_rates t2).FileName ∧
    (appy1_extract paras tables doc_path cfg custom_rates t1).ExtractedOn = t1 ∧
    (appy1_extract paras tables doc_path cfg custom_rates t2).ExtractedOn = t2 :=
  ⟨rfl, rfl, rfl, rfl, rfl, rfl, rfl, rfl, rfl, rfl, rfl⟩
